import Mathlib

/-!
Verification development for the `my-little-apps` Tauri application
(`src-tauri/src/lib.rs`, `src-tauri/src/proxy.rs`, `src-tauri/src/mdns.rs`).

The Rust code is shallowly embedded: pure functions become Lean functions,
stateful commands become explicit state-passing functions that also return
the list of externally visible effects they perform, and the outcomes of
OS or network calls (TCP bind probes, process spawns, kills, HTTP posts)
are passed in as oracle parameters so that every code path of the source
is represented.  Maps (`std::collections::HashMap`) are embedded as
association lists with key-unique insert/remove; machine integers (`i32`,
`u32`) are embedded as `Int`/`Nat` (all arithmetic in the sources stays far
from the overflow boundary: ports lie in [10000, 60000) and the only modulo
is `% 50000`).  Unicode-sensitive Rust primitives (`to_lowercase`,
`is_alphanumeric`, `trim`, `split_whitespace`) are modelled by Lean's
`Char.toLower`, `Char.isAlphanum`, `String.trim` and a whitespace split,
which agree with Rust on the ASCII subset.
-/

namespace MyLittleApps

/-- Association-list embedding of `HashMap::get(k)` (as `Option` of value). -/
def lookupKey {α : Type} (m : List (String × α)) (k : String) : Option α :=
  (m.find? (fun e => e.1 = k)).map (fun e => e.2)

/-- Association-list embedding of `HashMap::insert(k, v)` (replaces any
existing binding for `k`; iteration order of a `HashMap` is unspecified, so
placing the new binding first is a faithful choice). -/
def insertKey {α : Type} (m : List (String × α)) (k : String) (v : α) :
    List (String × α) :=
  (k, v) :: m.filter (fun e => e.1 ≠ k)

/-- Association-list embedding of `HashMap::remove(k)` (dropping the binding;
the removed value, when needed, is recovered with `lookupKey` first). -/
def removeKey {α : Type} (m : List (String × α)) (k : String) :
    List (String × α) :=
  m.filter (fun e => e.1 ≠ k)

/-! ### `proxy.rs`: routes and Caddyfile rendering -/

/-- `proxy.rs` `ProxyRoute`: a running app's subdomain mapping. -/
structure ProxyRoute where
  subdomain : String
  port : Int
deriving DecidableEq, Repr

/-- `proxy.rs` `generate_caddyfile`: render the route table (`app_id ->
ProxyRoute`, iterated over its values) into Caddyfile text.  String literals
and their order follow the `push_str` calls of the source line by line. -/
def generate_caddyfile (routes : List (String × ProxyRoute)) (hostname : String) :
    String :=
  let content := "\x7b\n" ++ "\tauto_https off\n" ++ "\tadmin localhost:2019\n" ++ "\x7d\n\n"
  if routes.isEmpty then
    content ++ ":80 \x7b\n" ++
      "\trespond \"My Little Apps proxy is running. No apps configured yet.\" 200\n" ++
      "\x7d\n"
  else
    let content := content ++ String.join ((routes.map (fun e => e.2)).map (fun route =>
      ("http://" ++ route.subdomain ++ "." ++ hostname ++ ".local") ++ " \x7b\n" ++
      ("\treverse_proxy localhost:" ++ toString route.port ++ "\n") ++
      "\x7d\n\n"))
    content ++ ("http://*." ++ hostname ++ ".local \x7b\n") ++
      "\trespond \"App not found. Make sure it\x27s running in My Little Apps.\" 404\n" ++
      "\x7d\n"

/-- The global-options block that opens every rendered document. -/
def globalHeader : String :=
  "\x7b\n\tauto_https off\n\tadmin localhost:2019\n\x7d\n\n"

/-- The default informational block rendered for an empty route table. -/
def defaultBlock : String :=
  ":80 \x7b\n\trespond \"My Little Apps proxy is running. No apps configured yet.\" 200\n\x7d\n"

/-- The per-route reverse-proxy block: names the route's subdomain and
proxies to `localhost:{port}`. -/
def appBlock (hostname : String) (route : ProxyRoute) : String :=
  ("http://" ++ route.subdomain ++ "." ++ hostname ++ ".local") ++ " \x7b\n" ++
    ("\treverse_proxy localhost:" ++ toString route.port ++ "\n") ++
    "\x7d\n\n"

/-- The catch-all block for unmatched subdomains (non-empty table only). -/
def catchAllBlock (hostname : String) : String :=
  ("http://*." ++ hostname ++ ".local \x7b\n") ++
    "\trespond \"App not found. Make sure it\x27s running in My Little Apps.\" 404\n" ++
    "\x7d\n"

/-- `proxy.rs` `slugify` helper: Rust's `str::split('-')` on the character
list (empty pieces kept, as in Rust). -/
def splitDash : List Char → List (List Char)
  | [] => [[]]
  | c :: cs =>
    if c = '-' then [] :: splitDash cs
    else
      match splitDash cs with
      | [] => [[c]]
      | r :: rs => (c :: r) :: rs

/-- `proxy.rs` `slugify`: lowercase, map each non-alphanumeric character to
`'-'`, split on `'-'`, drop empty pieces, join with `"-"`. -/
def slugify (name : String) : String :=
  String.intercalate "-"
    (((splitDash ((name.data.map Char.toLower).map
        (fun c => if c.isAlphanum then c else '-'))).filter
        (fun l => l ≠ [])).map (fun l => l.asString))

/-- Maximal runs of alphanumeric characters, in order (the spec's reading:
everything between runs is a separator run that collapses away). -/
def alnumRuns : List Char → List (List Char)
  | [] => []
  | c :: cs =>
    if c.isAlphanum then
      match cs with
      | [] => [[c]]
      | d :: _ =>
        if d.isAlphanum then
          match alnumRuns cs with
          | [] => [[c]]
          | r :: rs => (c :: r) :: rs
        else [c] :: alnumRuns cs
    else alnumRuns cs

/-- Spec-side slugify (`spec.md` §8): lowercase, collapse every maximal run
of non-alphanumeric characters to a single separator, trim leading and
trailing separators — i.e. join the maximal alphanumeric runs of the
lowercased string with single dashes. -/
def slugifySpec (name : String) : String :=
  String.intercalate "-" ((alnumRuns (name.data.map Char.toLower)).map (fun l => l.asString))

/-! ### `lib.rs`: port allocator -/

/-- The loop of `find_free_port` (`lib.rs:69-74`): up to `fuel` attempts,
the `i`-th probing port `10000 + (rand % 50000)`.  `binds p` is the oracle
for "`TcpListener::bind("127.0.0.1:p")` succeeds"; `rands i` is the `u32`
returned by the `i`-th call of `rand_port()`. -/
def tryRandomPorts (binds : Int → Bool) (rands : Nat → Nat) :
    Nat → Nat → Option Int
  | _, 0 => none
  | i, fuel + 1 =>
    let port : Int := 10000 + ((rands i % 50000 : Nat) : Int)
    if binds port then some port else tryRandomPorts binds rands (i + 1) fuel

/-- `lib.rs` `find_free_port`: try the preferred port first, then up to 100
pseudo-random ports in [10000, 60000). -/
def find_free_port (preferred : Option Int) (binds : Int → Bool)
    (rands : Nat → Nat) : Option Int :=
  match preferred with
  | some port => if binds port then some port else tryRandomPorts binds rands 0 100
  | none => tryRandomPorts binds rands 0 100

/-- The `i`-th candidate port probed by the random loop. -/
def candidatePort (rands : Nat → Nat) (i : Nat) : Int :=
  10000 + ((rands i % 50000 : Nat) : Int)

/-- Boolean prefix test on character lists (helper for substring checks). -/
def leadsWith : List Char → List Char → Bool
  | [], _ => true
  | _ :: _, [] => false
  | c :: cs, d :: ds => c = d && leadsWith cs ds

/-- Boolean substring test: does `needle` occur contiguously in `hay`? -/
def containsSeq (needle : List Char) : List Char → Bool
  | [] => leadsWith needle []
  | c :: cs => leadsWith needle (c :: cs) || containsSeq needle cs

/-! ### `lib.rs`: process supervisor state and commands -/

/-- `lib.rs` `RunningProcess`: the tracked child handle (embedded as its OS
pid) and the bound port. -/
structure RunningProcess where
  pid : Nat
  port : Int
deriving DecidableEq, Repr

/-- `lib.rs` `AppState`: running processes and per-app log buffers. -/
structure AppState where
  processes : List (String × RunningProcess)
  logs : List (String × List String)
deriving DecidableEq, Repr

/-- Externally visible effects a supervisor command performs, in order. -/
inductive Effect where
  | allocProbe : Effect
  | spawnAttempt : Effect
  | spawned : Nat → Effect
  | killedTree : Nat → Effect
  | killedChild : Nat → Effect
  | emittedStarted : String → Int → Effect
  | emittedStopped : String → Option Int → Effect
deriving DecidableEq, Repr

/-- `lib.rs` `start_app`: reject an already-running id, allocate a port,
parse the command by whitespace (`split_whitespace`), spawn, record the
process, reset the app's log buffer, emit `app-started`.  `binds`/`rands`
drive the allocator; `spawn` is the outcome of `cmd.spawn()` (the new
child's pid on success, the error text on failure). -/
def start_app (st : AppState) (id _path command : String) (port : Int)
    (binds : Int → Bool) (rands : Nat → Nat) (spawn : Except String Nat) :
    Except String Int × AppState × List Effect :=
  if (lookupKey st.processes id).isSome then
    (.error "App is already running", st, [])
  else
    match find_free_port (some port) binds rands with
    | none => (.error "Could not find a free port", st, [.allocProbe])
    | some actual_port =>
      let parts := (command.split (fun c => c.isWhitespace)).filter (fun s => s ≠ "")
      if parts = [] then
        (.error "Invalid command", st, [.allocProbe])
      else
        match spawn with
        | .error e => (.error ("Failed to start app: " ++ e), st, [.allocProbe, .spawnAttempt])
        | .ok pid =>
          (.ok actual_port,
           { processes := insertKey st.processes id ⟨pid, actual_port⟩,
             logs := insertKey st.logs id [] },
           [.allocProbe, .spawned pid, .emittedStarted id actual_port])

/-- `lib.rs` `stop_app`: remove the entry (no-op `Ok` when absent), kill the
process tree, then kill the tracked child (`kill` is that call's outcome);
emit `app-stopped` with `code: null` only after a successful kill. -/
def stop_app (st : AppState) (id : String) (kill : Except String Unit) :
    Except String Unit × AppState × List Effect :=
  match lookupKey st.processes id with
  | none => (.ok (), st, [])
  | some process =>
    let st' : AppState := { st with processes := removeKey st.processes id }
    match kill with
    | .error e =>
      (.error ("Failed to stop app: " ++ e), st', [.killedTree process.pid])
    | .ok _ =>
      (.ok (), st', [.killedTree process.pid, .killedChild process.pid,
                     .emittedStopped id none])

/-- `lib.rs` `get_app_status`: the bound port of a tracked id, else nothing. -/
def get_app_status (st : AppState) (id : String) : Option Int :=
  (lookupKey st.processes id).map (fun p => p.port)

/-- `lib.rs` `get_running_apps`: the id → port map over tracked processes. -/
def get_running_apps (st : AppState) : List (String × Int) :=
  st.processes.map (fun e => (e.1, e.2.port))

/-! ### `lib.rs`: process-map trace semantics

The `processes` map is mutated from three places: a successful `start_app`
inserts, `stop_app` removes, and the output-capture task's
`CommandEvent::Terminated` arm (`lib.rs:233-242`) — which only emits the
`app-stopped` event and breaks out of its loop, leaving `processes`
untouched. -/

/-- The events that reach the `processes` map over time. -/
inductive SysEvent where
  | startOk : String → Int → SysEvent
  | stopApp : String → SysEvent
  | childExited : String → Option Int → SysEvent
deriving DecidableEq, Repr

/-- One event's action on the id → port view of the `processes` map.
`startOk` performs the `processes.insert` of `lib.rs:171-177`; `stopApp`
performs the `processes.remove` of `lib.rs:268`; `childExited` is the
`CommandEvent::Terminated` arm, which does not touch the map. -/
def applyEvent (m : List (String × Int)) : SysEvent → List (String × Int)
  | .startOk id port => insertKey m id port
  | .stopApp id => removeKey m id
  | .childExited _ _ => m

/-- Replay a list of events over the id → port map. -/
def applyEvents (m : List (String × Int)) (evs : List SysEvent) :
    List (String × Int) :=
  evs.foldl applyEvent m

/-- Does this event touch id `i`'s entry (a start or stop for `i`)? -/
def touches (i : String) : SysEvent → Bool
  | .startOk j _ => j = i
  | .stopApp j => j = i
  | .childExited _ _ => false

/-! ### `lib.rs`: bounded log buffer -/

/-- One buffer entry append from the output-capture task: `push` the line,
then `if len > 500 { remove(0) }`. -/
def pushBounded (buf : List String) (entry : String) : List String :=
  let b := buf ++ [entry]
  if 500 < b.length then b.eraseIdx 0 else b

/-- The events the output-capture task receives from the child. -/
inductive OutEvent where
  | stdout : String → OutEvent
  | stderr : String → OutEvent
  | terminated : Option Int → OutEvent
deriving DecidableEq, Repr

/-- Rust `str::trim`: strip whitespace from both ends (embedded over the
character list so that it evaluates by kernel reduction). -/
def trimString (s : String) : String :=
  (((s.data.dropWhile Char.isWhitespace).reverse.dropWhile Char.isWhitespace).reverse).asString

/-- One iteration of the capture loop's effect on the app's log buffer
(`lib.rs:190-246`): stdout/stderr lines are trimmed, tagged with their
stream, and appended bounded; a termination event leaves the buffer alone. -/
def handleOutEvent (buf : List String) : OutEvent → List String
  | .stdout line => pushBounded buf ("[stdout] " ++ trimString line)
  | .stderr line => pushBounded buf ("[stderr] " ++ trimString line)
  | .terminated _ => buf

/-- The log buffer after a whole sequence of child-output events. -/
def runCapture (buf : List String) (evs : List OutEvent) : List String :=
  evs.foldl handleOutEvent buf

/-! ### `proxy.rs`: admin-API push and route mutation -/

/-- The outcome of the HTTP POST inside `load_caddyfile_via_api`: either the
`send()` call failed (network error text) or a response arrived with a
success flag (`status().is_success()`) and a body text. -/
inductive HttpOutcome where
  | netError : String → HttpOutcome
  | response : Bool → String → HttpOutcome
deriving DecidableEq, Repr

/-- `proxy.rs` `load_caddyfile_via_api`: map the HTTP outcome for the posted
content to the command result, wrapping error texts as the source does. -/
def load_caddyfile_via_api (outcome : HttpOutcome) : Except String Unit :=
  match outcome with
  | .netError e =>
    .error ("Failed to connect to Caddy admin API (is the proxy service running?): " ++ e)
  | .response true _ => .ok ()
  | .response false body => .error ("Caddy config load failed: " ++ body)

/-- `proxy.rs` `update_routes`: render the whole table and push it.  `http`
is the oracle giving the HTTP outcome for each posted body. -/
def update_routes (routes : List (String × ProxyRoute)) (hostname : String)
    (http : String → HttpOutcome) : Except String Unit :=
  load_caddyfile_via_api (http (generate_caddyfile routes hostname))

/-- `proxy.rs` `add_route`: insert the route under the lock, then push the
full table; returns the push result and the mutated table. -/
def add_route (routes : List (String × ProxyRoute)) (hostname : String)
    (http : String → HttpOutcome) (app_id subdomain : String) (port : Int) :
    Except String Unit × List (String × ProxyRoute) :=
  let routes' := insertKey routes app_id ⟨subdomain, port⟩
  (update_routes routes' hostname http, routes')

/-- `proxy.rs` `remove_route`: drop the route under the lock, then push the
full table; returns the push result and the mutated table. -/
def remove_route (routes : List (String × ProxyRoute)) (hostname : String)
    (http : String → HttpOutcome) (app_id : String) :
    Except String Unit × List (String × ProxyRoute) :=
  let routes' := removeKey routes app_id
  (update_routes routes' hostname http, routes')

/-! ### `mdns.rs`: name registry -/

/-- `mdns.rs` `MdnsRegistry` state: subdomain → announcer process (embedded
as its pid), plus a counter supplying fresh pids for newly spawned
announcers. -/
structure MdnsState where
  processes : List (String × Nat)
  nextPid : Nat
deriving DecidableEq, Repr

/-- Process-level events `register` performs, in program order. -/
inductive MEvent where
  | spawnedProc : Nat → MEvent
  | killedProc : Nat → MEvent
deriving DecidableEq, Repr

/-- `mdns.rs` `MdnsRegistry::register`: spawn the `dns-sd` announcer first
(`Command::new(...).spawn()`, `mdns.rs:19-32`); on success take the lock,
kill any previously tracked announcer for the subdomain (`mdns.rs:36-38`),
and insert the new child.  `spawnOk` is the outcome of the spawn. -/
def register (st : MdnsState) (subdomain : String) (spawnOk : Bool) :
    Except String Unit × MdnsState × List MEvent :=
  if spawnOk then
    let newPid := st.nextPid
    match lookupKey st.processes subdomain with
    | some oldPid =>
      (.ok (),
       ⟨insertKey (removeKey st.processes subdomain) subdomain newPid, st.nextPid + 1⟩,
       [.spawnedProc newPid, .killedProc oldPid])
    | none =>
      (.ok (), ⟨insertKey st.processes subdomain newPid, st.nextPid + 1⟩,
       [.spawnedProc newPid])
  else
    (.error ("Failed to register mDNS for " ++ subdomain), st, [])

/-- The set of live announcer pids after a prefix of `register`'s events:
a spawn adds a pid, a kill removes it. -/
def liveAfter (initial : List Nat) (evs : List MEvent) : List Nat :=
  evs.foldl
    (fun live e =>
      match e with
      | .spawnedProc p => live ++ [p]
      | .killedProc p => live.filter (fun q => q ≠ p))
    initial

/-- Does `evs` kill `oldPid` strictly before spawning `newPid`?  (The order
the spec prescribes for announcer replacement.) -/
def killsBeforeSpawns (evs : List MEvent) (oldPid newPid : Nat) : Bool :=
  match evs.findIdx? (fun e => e = .killedProc oldPid),
        evs.findIdx? (fun e => e = .spawnedProc newPid) with
  | some ki, some si => ki < si
  | _, _ => false

/-! ### Helper lemmas -/

theorem splitDash_ne_nil (l : List Char) : splitDash l ≠ [] := by
  cases l with
  | nil => simp [splitDash]
  | cons c cs =>
    simp only [splitDash]
    split
    · simp
    · split <;> simp

theorem alnumRuns_cons_neg (c : Char) (cs : List Char) (hc : ¬c.isAlphanum = true) :
    alnumRuns (c :: cs) = alnumRuns cs := by
  rw [alnumRuns.eq_def]
  simp [hc]

theorem alnumRuns_single (c : Char) (hc : c.isAlphanum = true) :
    alnumRuns [c] = [[c]] := by
  rw [alnumRuns.eq_def]
  simp [hc]

theorem alnumRuns_cons_pos_pos (c d : Char) (cs' : List Char)
    (hc : c.isAlphanum = true) (hd : d.isAlphanum = true) :
    alnumRuns (c :: d :: cs') =
      (match alnumRuns (d :: cs') with
       | [] => [[c]]
       | r :: rs => (c :: r) :: rs) := by
  rw [alnumRuns.eq_def]
  simp [hc, hd]

theorem alnumRuns_cons_pos_neg (c d : Char) (cs' : List Char)
    (hc : c.isAlphanum = true) (hd : ¬d.isAlphanum = true) :
    alnumRuns (c :: d :: cs') = [c] :: alnumRuns (d :: cs') := by
  rw [alnumRuns.eq_def]
  simp [hc, hd]

theorem splitDash_mapDash (l : List Char) :
    (splitDash (l.map (fun c => if c.isAlphanum then c else '-'))).filter
      (fun r => r ≠ []) = alnumRuns l := by
  induction l with
  | nil => simp [splitDash, alnumRuns]
  | cons c cs ih =>
    by_cases hc : c.isAlphanum
    · have hcd : ¬(c = '-') := by
        intro h; rw [h] at hc; exact absurd hc (by decide)
      obtain ⟨r, rs, hsplit⟩ := List.exists_cons_of_ne_nil
        (splitDash_ne_nil (cs.map (fun c => if c.isAlphanum then c else '-')))
      have hstep : splitDash ((c :: cs).map (fun c => if c.isAlphanum then c else '-')) =
          (c :: r) :: rs := by
        simp [splitDash, hc, hcd, hsplit]
      rw [hstep]
      cases cs with
      | nil =>
        simp only [List.map_nil, splitDash] at hsplit
        injection hsplit with hr hrs
        subst hr; subst hrs
        rw [alnumRuns_single c hc]
        simp
      | cons d cs' =>
        by_cases hd : d.isAlphanum
        · have hdd : ¬(d = '-') := by
            intro h; rw [h] at hd; exact absurd hd (by decide)
          obtain ⟨r', rs', hsplit'⟩ := List.exists_cons_of_ne_nil
            (splitDash_ne_nil (cs'.map (fun c => if c.isAlphanum then c else '-')))
          have hstep' : splitDash ((d :: cs').map (fun c => if c.isAlphanum then c else '-')) =
              (d :: r') :: rs' := by
            simp [splitDash, hd, hdd, hsplit']
          rw [hstep'] at hsplit
          injection hsplit with hr hrs
          subst hr; subst hrs
          rw [hstep'] at ih
          rw [alnumRuns_cons_pos_pos c d cs' hc hd, ← ih]
          simp [List.filter_cons]
        · have hstep' : splitDash ((d :: cs').map (fun c => if c.isAlphanum then c else '-')) =
              [] :: splitDash (cs'.map (fun c => if c.isAlphanum then c else '-')) := by
            simp [splitDash, hd]
          rw [hstep'] at hsplit
          injection hsplit with hr hrs
          subst hr; subst hrs
          rw [hstep'] at ih
          rw [alnumRuns_cons_pos_neg c d cs' hc hd, ← ih]
          simp [List.filter_cons]
    · have hstep : splitDash ((c :: cs).map (fun c => if c.isAlphanum then c else '-')) =
          [] :: splitDash (cs.map (fun c => if c.isAlphanum then c else '-')) := by
        simp [splitDash, hc]
      rw [hstep, alnumRuns_cons_neg c cs hc, ← ih]
      simp [List.filter_cons]

theorem tryRandomPorts_eq (binds : Int → Bool) (rands : Nat → Nat) :
    ∀ (fuel i : Nat),
      tryRandomPorts binds rands i fuel =
        ((List.range fuel).map (fun j => candidatePort rands (i + j))).find?
          (fun q => binds q) := by
  intro fuel
  induction fuel with
  | zero => intro i; simp [tryRandomPorts]
  | succ n ih =>
    intro i
    rw [List.range_succ_eq_map]
    have hfun : ((List.range n).map Nat.succ).map (fun j => candidatePort rands (i + j)) =
        (List.range n).map (fun j => candidatePort rands ((i + 1) + j)) := by
      rw [List.map_map]
      refine List.map_congr_left ?_
      intro j _
      simp only [Function.comp_apply]
      congr 1
      omega
    simp only [List.map_cons, hfun, Nat.add_zero]
    simp only [tryRandomPorts, candidatePort]
    by_cases hb : binds (10000 + ((rands i % 50000 : Nat) : Int))
    · rw [if_pos hb, List.find?_cons_of_pos _ hb]
    · rw [if_neg hb, List.find?_cons_of_neg _ (by simpa using hb), ih (i + 1)]
      rfl

/-- C5: `find_free_port` returns the preferred port exactly when it binds;
otherwise (no preferred port, or the preferred one fails to bind) it probes
the 100 pseudo-random candidates in order and returns the first that binds;
every candidate lies in [10000, 60000); and when no candidate binds within
the budget the allocation fails (`none`, surfaced as the allocation error). -/
theorem find_free_port_spec (preferred : Option Int) (binds : Int → Bool)
    (rands : Nat → Nat) :
    (∀ p, preferred = some p → binds p = true →
      find_free_port preferred binds rands = some p)
    ∧ ((preferred = none ∨ ∃ p, preferred = some p ∧ binds p = false) →
        find_free_port preferred binds rands =
          ((List.range 100).map (fun j => candidatePort rands j)).find?
            (fun q => binds q))
    ∧ (∀ i, 10000 ≤ candidatePort rands i ∧ candidatePort rands i < 60000)
    ∧ ((preferred = none ∨ ∃ p, preferred = some p ∧ binds p = false) →
        (∀ i, i < 100 → binds (candidatePort rands i) = false) →
        find_free_port preferred binds rands = none) := by
  have hrange : ∀ i : Nat, 10000 ≤ candidatePort rands i ∧ candidatePort rands i < 60000 := by
    intro i
    have h := Nat.mod_lt (rands i) (show 0 < 50000 by norm_num)
    unfold candidatePort
    omega
  have hscan : (preferred = none ∨ ∃ p, preferred = some p ∧ binds p = false) →
      find_free_port preferred binds rands =
        ((List.range 100).map (fun j => candidatePort rands j)).find?
          (fun q => binds q) := by
    intro h
    rcases h with h | ⟨p, hp, hb⟩
    · subst h
      show tryRandomPorts binds rands 0 100 = _
      rw [tryRandomPorts_eq]
      simp only [Nat.zero_add]
    · subst hp
      show (if binds p = true then some p else tryRandomPorts binds rands 0 100) = _
      rw [if_neg (by simp [hb]), tryRandomPorts_eq]
      simp only [Nat.zero_add]
  refine ⟨?_, hscan, hrange, ?_⟩
  · intro p hp hb
    subst hp
    show (if binds p = true then some p else tryRandomPorts binds rands 0 100) = some p
    rw [if_pos hb]
  · intro h hall
    rw [hscan h]
    rw [List.find?_eq_none]
    intro x hx
    simp only [List.mem_map, List.mem_range] at hx
    obtain ⟨i, hi, rfl⟩ := hx
    simp [hall i hi]

/-- Witness for `find_free_port_spec`: a binding preferred port is returned
as-is, and with no preferred port and nothing bindable the call fails. -/
theorem find_free_port_spec_witness :
    find_free_port (some 3000) (fun _ => true) (fun _ => 0) = some 3000
    ∧ find_free_port none (fun _ => false) (fun _ => 0) = none :=
  ⟨(find_free_port_spec (some 3000) (fun _ => true) (fun _ => 0)).1 3000 rfl rfl,
   (find_free_port_spec none (fun _ => false) (fun _ => 0)).2.2.2 (Or.inl rfl)
     (fun _ _ => rfl)⟩

/-- C6: the rendered Caddyfile for an empty route table is exactly the
global header followed by the default informational block (which contains
no `reverse_proxy` directive, hence no per-app block); for a non-empty
table it is exactly the global header, one `appBlock` per route — each
naming that route's subdomain and proxying to `localhost:{port}` — and one
catch-all block, with no default block present. -/
theorem generate_caddyfile_spec (routes : List (String × ProxyRoute)) (hostname : String) :
    (routes = [] → generate_caddyfile routes hostname = globalHeader ++ defaultBlock)
    ∧ containsSeq "reverse_proxy".data (globalHeader ++ defaultBlock).data = false
    ∧ (routes ≠ [] →
        generate_caddyfile routes hostname =
          globalHeader ++
            String.join (routes.map (fun e => appBlock hostname e.2)) ++
            catchAllBlock hostname) := by
  refine ⟨?_, by decide, ?_⟩
  · rintro rfl
    rfl
  · intro hne
    obtain ⟨x, xs, rfl⟩ := List.exists_cons_of_ne_nil hne
    simp only [generate_caddyfile, List.isEmpty_cons, Bool.false_eq_true, if_false,
      globalHeader, appBlock, catchAllBlock, List.map_map, Function.comp_def]
    simp [String.append_assoc]

/-- Witness for `generate_caddyfile_spec`: the empty and a one-route table
rendered concretely. -/
theorem generate_caddyfile_spec_witness :
    generate_caddyfile [] "macbook" = globalHeader ++ defaultBlock
    ∧ generate_caddyfile [("app1", ⟨"blog", 3000⟩)] "macbook" =
        globalHeader ++
          String.join ([(("app1" : String), (⟨"blog", 3000⟩ : ProxyRoute))].map
            (fun e => appBlock "macbook" e.2)) ++
          catchAllBlock "macbook" :=
  ⟨(generate_caddyfile_spec [] "macbook").1 rfl,
   (generate_caddyfile_spec [("app1", ⟨"blog", 3000⟩)] "macbook").2.2 (by simp)⟩

theorem lookupKey_insertKey_self {α : Type} (m : List (String × α)) (k : String) (v : α) :
    lookupKey (insertKey m k v) k = some v := by
  unfold lookupKey insertKey
  rw [List.find?_cons_of_pos _ (by simp)]
  rfl

theorem find?_key_filter_ne {α : Type} (m : List (String × α)) (j k : String) (h : ¬j = k) :
    (m.filter (fun e => e.1 ≠ j)).find? (fun e => e.1 = k) =
      m.find? (fun e => e.1 = k) := by
  induction m with
  | nil => rfl
  | cons x xs ih =>
    by_cases hx : x.1 = j
    · rw [List.filter_cons_of_neg (by simp [hx]), List.find?_cons_of_neg _ (by simp [hx, h])]
      exact ih
    · rw [List.filter_cons_of_pos (by simp [hx])]
      by_cases hk : x.1 = k
      · rw [List.find?_cons_of_pos _ (by simp [hk]), List.find?_cons_of_pos _ (by simp [hk])]
      · rw [List.find?_cons_of_neg _ (by simp [hk]), List.find?_cons_of_neg _ (by simp [hk])]
        exact ih

theorem lookupKey_insertKey_other {α : Type} (m : List (String × α)) (j k : String)
    (v : α) (h : ¬j = k) : lookupKey (insertKey m j v) k = lookupKey m k := by
  unfold lookupKey insertKey
  rw [List.find?_cons_of_neg _ (by simp [h]), find?_key_filter_ne m j k h]

theorem lookupKey_removeKey_self {α : Type} (m : List (String × α)) (k : String) :
    lookupKey (removeKey m k) k = none := by
  unfold lookupKey removeKey
  have hnone : (m.filter (fun e => e.1 ≠ k)).find? (fun e => e.1 = k) = none := by
    rw [List.find?_eq_none]
    intro x hx
    simp only [List.mem_filter] at hx
    simpa using hx.2
  rw [hnone]
  rfl

theorem lookupKey_removeKey_other {α : Type} (m : List (String × α)) (j k : String)
    (h : ¬j = k) : lookupKey (removeKey m j) k = lookupKey m k := by
  unfold lookupKey removeKey
  rw [find?_key_filter_ne m j k h]

theorem lookupKey_applyEvent_untouched (m : List (String × Int)) (id : String) (P : Int)
    (e : SysEvent) (hm : lookupKey m id = some P) (he : touches id e = false) :
    lookupKey (applyEvent m e) id = some P := by
  cases e with
  | startOk j q =>
    simp only [touches, decide_eq_false_iff_not] at he
    show lookupKey (insertKey m j q) id = some P
    rw [lookupKey_insertKey_other m j id q he]
    exact hm
  | stopApp j =>
    simp only [touches, decide_eq_false_iff_not] at he
    show lookupKey (removeKey m j) id = some P
    rw [lookupKey_removeKey_other m j id he]
    exact hm
  | childExited j c => exact hm

theorem lookupKey_applyEvents_untouched (evs : List SysEvent) :
    ∀ (m : List (String × Int)) (id : String) (P : Int),
      lookupKey m id = some P → evs.all (fun e => !(touches id e)) = true →
      lookupKey (applyEvents m evs) id = some P := by
  induction evs with
  | nil => intro m id P hm _; exact hm
  | cons e evs' ih =>
    intro m id P hm hall
    rw [List.all_cons, Bool.and_eq_true] at hall
    have he : touches id e = false := by
      have h1 := hall.1
      simpa using h1
    exact ih _ _ _ (lookupKey_applyEvent_untouched m id P e hm he) hall.2

theorem pushBounded_length_le (buf : List String) (entry : String)
    (h : buf.length ≤ 500) : (pushBounded buf entry).length ≤ 500 := by
  simp only [pushBounded]
  split
  all_goals simp_all [List.length_eraseIdx, List.length_append]

theorem handleOutEvent_length_le (buf : List String) (e : OutEvent)
    (h : buf.length ≤ 500) : (handleOutEvent buf e).length ≤ 500 := by
  cases e with
  | stdout line => exact pushBounded_length_le _ _ h
  | stderr line => exact pushBounded_length_le _ _ h
  | terminated c => exact h

theorem runCapture_length_le (evs : List OutEvent) :
    ∀ buf : List String, buf.length ≤ 500 → (runCapture buf evs).length ≤ 500 := by
  induction evs with
  | nil => intro buf h; exact h
  | cons e evs' ih => intro buf h; exact ih _ (handleOutEvent_length_le buf e h)

theorem pushBounded_evict (buf : List String) (entry : String) (h : buf.length = 500) :
    pushBounded buf entry = buf.tail ++ [entry] := by
  cases buf with
  | nil => simp at h
  | cons y ys =>
    simp only [List.length_cons] at h
    simp only [pushBounded]
    rw [if_pos (by simp [List.length_append]; omega)]
    simp [List.cons_append]

/-- C8: `slugify` equals the spec-side function that lowercases, collapses
every maximal non-alphanumeric run into one `-` and trims separators at the
ends (joining the maximal alphanumeric runs of the lowercased input with
single dashes), and it sends the three spec examples to `"my-app"`,
`"my-app-123"` and `"my-app"`. -/
theorem slugify_spec :
    (∀ name : String, slugify name = slugifySpec name)
    ∧ slugify "My  App" = "my-app"
    ∧ slugify "My_App_123" = "my-app-123"
    ∧ slugify "  My App  " = "my-app" := by
  refine ⟨fun name => ?_, by decide, by decide, by decide⟩
  unfold slugify slugifySpec
  rw [splitDash_mapDash]

/-- C1 counterexample: after a successful start of `"a"` on port 3000
followed by the child's own termination event, the status lookup still
returns port 3000, not nothing — the `CommandEvent::Terminated` arm only
emits `app-stopped` and never removes the entry from `processes`. -/
theorem status_after_exit_counterexample :
    lookupKey (applyEvents [] [.startOk "a" 3000, .childExited "a" (some 0)]) "a" =
      some 3000
    ∧ lookupKey (applyEvents [] [.startOk "a" 3000, .childExited "a" (some 0)]) "a" ≠
      none := by
  constructor
  · decide
  · decide

/-- C1 (amended): after a successful `start(id)` returning port `P`, every
status lookup returns `P` across any further events that are not a start or
stop for `id` — including the app's own process exiting, whose termination
event leaves the entry in place — and only a `stop(id)` makes the status
lookup return nothing. -/
theorem status_stable_until_stop (pre : List (String × Int)) (id : String) (P : Int)
    (evs : List SysEvent) (h : evs.all (fun e => !(touches id e)) = true) :
    lookupKey (applyEvents (applyEvent pre (.startOk id P)) evs) id = some P
    ∧ lookupKey
        (applyEvent (applyEvents (applyEvent pre (.startOk id P)) evs) (.stopApp id))
        id = none := by
  have h0 : lookupKey (applyEvent pre (.startOk id P)) id = some P :=
    lookupKey_insertKey_self pre id P
  refine ⟨lookupKey_applyEvents_untouched evs _ id P h0 h, ?_⟩
  show lookupKey (removeKey _ id) id = none
  exact lookupKey_removeKey_self _ id

/-- Witness for `status_stable_until_stop`: a concrete trace whose only
intermediate event is the child's own exit. -/
theorem status_stable_until_stop_witness :
    lookupKey (applyEvents (applyEvent [] (.startOk "a" 3000))
        [.childExited "a" (some 0)]) "a" = some 3000
    ∧ lookupKey (applyEvent (applyEvents (applyEvent [] (.startOk "a" 3000))
        [.childExited "a" (some 0)]) (.stopApp "a")) "a" = none :=
  status_stable_until_stop [] "a" 3000 [.childExited "a" (some 0)] (by decide)

/-- C2: `add_route` and `remove_route` mutate the in-memory table first and
keep the mutation regardless of the push outcome — after `add_route` the
table maps the id to its subdomain and port, after `remove_route` the id is
gone — and when the push fails (non-success response or network failure)
the call returns the error carrying the engine's error text. -/
theorem add_remove_route_not_rolled_back (routes : List (String × ProxyRoute))
    (hostname app_id subdomain : String) (port : Int) (http : String → HttpOutcome) :
    lookupKey (add_route routes hostname http app_id subdomain port).2 app_id =
      some ⟨subdomain, port⟩
    ∧ lookupKey (remove_route routes hostname http app_id).2 app_id = none
    ∧ (∀ body,
        http (generate_caddyfile (insertKey routes app_id ⟨subdomain, port⟩) hostname) =
          .response false body →
        (add_route routes hostname http app_id subdomain port).1 =
          .error ("Caddy config load failed: " ++ body))
    ∧ (∀ e,
        http (generate_caddyfile (insertKey routes app_id ⟨subdomain, port⟩) hostname) =
          .netError e →
        (add_route routes hostname http app_id subdomain port).1 =
          .error ("Failed to connect to Caddy admin API (is the proxy service running?): " ++ e))
    ∧ (∀ body,
        http (generate_caddyfile (removeKey routes app_id) hostname) =
          .response false body →
        (remove_route routes hostname http app_id).1 =
          .error ("Caddy config load failed: " ++ body))
    ∧ (∀ e,
        http (generate_caddyfile (removeKey routes app_id) hostname) = .netError e →
        (remove_route routes hostname http app_id).1 =
          .error ("Failed to connect to Caddy admin API (is the proxy service running?): " ++ e)) := by
  refine ⟨?_, ?_, ?_, ?_, ?_, ?_⟩
  · exact lookupKey_insertKey_self routes app_id ⟨subdomain, port⟩
  · exact lookupKey_removeKey_self routes app_id
  · intro body hbody
    simp [add_route, update_routes, load_caddyfile_via_api, hbody]
  · intro e he
    simp [add_route, update_routes, load_caddyfile_via_api, he]
  · intro body hbody
    simp [remove_route, update_routes, load_caddyfile_via_api, hbody]
  · intro e he
    simp [remove_route, update_routes, load_caddyfile_via_api, he]

/-- Witness for `add_remove_route_not_rolled_back`: an engine that rejects
every push with body `"boom"`; the mutations stick and the error text comes
through. -/
theorem add_remove_route_witness :
    lookupKey (add_route [] "mac" (fun _ => .response false "boom") "a" "blog" 3000).2
      "a" = some ⟨"blog", 3000⟩
    ∧ (add_route [] "mac" (fun _ => .response false "boom") "a" "blog" 3000).1 =
        .error ("Caddy config load failed: " ++ "boom")
    ∧ lookupKey (remove_route [("a", ⟨"blog", 3000⟩)] "mac"
        (fun _ => .response false "boom") "a").2 "a" = none
    ∧ (remove_route [("a", ⟨"blog", 3000⟩)] "mac"
        (fun _ => .response false "boom") "a").1 =
        .error ("Caddy config load failed: " ++ "boom") :=
  ⟨(add_remove_route_not_rolled_back [] "mac" "a" "blog" 3000
      (fun _ => .response false "boom")).1,
   (add_remove_route_not_rolled_back [] "mac" "a" "blog" 3000
      (fun _ => .response false "boom")).2.2.1 "boom" rfl,
   (add_remove_route_not_rolled_back [("a", ⟨"blog", 3000⟩)] "mac" "a" "blog" 3000
      (fun _ => .response false "boom")).2.1,
   (add_remove_route_not_rolled_back [("a", ⟨"blog", 3000⟩)] "mac" "a" "blog" 3000
      (fun _ => .response false "boom")).2.2.2.2.1 "boom" rfl⟩

/-- C3 counterexample: with announcer pid 0 already active for `"blog"` and
pid 1 the next to be spawned, `register` performs `[spawn 1, kill 0]` — the
new announcer is spawned first, the old one is not killed before it, and
right after the spawn both pids are live at once. -/
theorem register_order_counterexample :
    (register ⟨[("blog", 0)], 1⟩ "blog" true).2.2 = [.spawnedProc 1, .killedProc 0]
    ∧ killsBeforeSpawns (register ⟨[("blog", 0)], 1⟩ "blog" true).2.2 0 1 = false
    ∧ liveAfter [0] ((register ⟨[("blog", 0)], 1⟩ "blog" true).2.2.take 1) = [0, 1] := by
  refine ⟨?_, ?_, ?_⟩
  · decide
  · decide
  · decide

/-- C3 (amended): when an announcer is already active for the subdomain,
`register` spawns the new announcer first and only then terminates the
prior one — still before inserting the new handle and returning, so after
the call the old announcer has been killed and exactly the new pid is
tracked for the subdomain, but the kill strictly follows the spawn and the
two announcers briefly coexist during the call. -/
theorem register_replaces_after_spawn (st : MdnsState) (subdomain : String)
    (oldPid : Nat) (h : lookupKey st.processes subdomain = some oldPid) :
    register st subdomain true =
      (.ok (),
       ⟨insertKey (removeKey st.processes subdomain) subdomain st.nextPid,
        st.nextPid + 1⟩,
       [.spawnedProc st.nextPid, .killedProc oldPid])
    ∧ lookupKey (insertKey (removeKey st.processes subdomain) subdomain st.nextPid)
        subdomain = some st.nextPid
    ∧ oldPid ∉ liveAfter [oldPid]
        [MEvent.spawnedProc st.nextPid, MEvent.killedProc oldPid] := by
  refine ⟨?_, ?_, ?_⟩
  · simp [register, h]
  · exact lookupKey_insertKey_self _ subdomain st.nextPid
  · simp [liveAfter, List.mem_filter]

/-- Witness for `register_replaces_after_spawn` at a one-announcer state. -/
theorem register_replaces_witness :
    register ⟨[("blog", 0)], 1⟩ "blog" true =
      (.ok (), ⟨insertKey (removeKey [("blog", 0)] "blog") "blog" 1, 2⟩,
       [.spawnedProc 1, .killedProc 0])
    ∧ lookupKey (insertKey (removeKey [("blog", 0)] "blog") "blog" 1) "blog" = some 1
    ∧ 0 ∉ liveAfter [0] [MEvent.spawnedProc 1, MEvent.killedProc 0] :=
  register_replaces_after_spawn ⟨[("blog", 0)], 1⟩ "blog" 0 (by decide)

/-- C4: `start_app` on an id already in the running set fails with the
already-running error, performs no effect at all (no allocator probe, no
spawn, no event), and leaves the state — running set and log buffers —
unchanged. -/
theorem start_app_already_running (st : AppState) (id path command : String)
    (port : Int) (binds : Int → Bool) (rands : Nat → Nat) (spawn : Except String Nat)
    (h : (lookupKey st.processes id).isSome = true) :
    start_app st id path command port binds rands spawn =
      (.error "App is already running", st, []) := by
  simp [start_app, h]

/-- Witness for `start_app_already_running` at a one-process state. -/
theorem start_app_already_running_witness :
    start_app ⟨[("a", ⟨7, 3000⟩)], [("a", [])]⟩ "a" "/tmp/app" "bun start" 3000
      (fun _ => true) (fun _ => 0) (.ok 8) =
      (.error "App is already running", ⟨[("a", ⟨7, 3000⟩)], [("a", [])]⟩, []) :=
  start_app_already_running ⟨[("a", ⟨7, 3000⟩)], [("a", [])]⟩ "a" "/tmp/app"
    "bun start" 3000 (fun _ => true) (fun _ => 0) (.ok 8) (by decide)

/-- C7 counterexample: the entry appended for the stdout line `"hello"` is
exactly `"[stdout] hello"` — tagged with its stream but containing no digit
at all, hence carrying no timestamp in any format. -/
theorem log_entry_no_timestamp_counterexample :
    runCapture [] [.stdout "hello"] = ["[stdout] hello"]
    ∧ (∀ c ∈ ("[stdout] hello" : String).data, c.isDigit = false) := by
  constructor
  · decide
  · decide

/-- C7 (amended): each captured line is appended as the trimmed text
prefixed by its stream tag (`"[stdout] "` or `"[stderr] "`, with no
timestamp), the buffer never exceeds 500 entries, and at the bound the
oldest (front) entry is evicted first. -/
theorem log_buffer_spec (buf : List String) (line : String) (evs : List OutEvent) :
    handleOutEvent buf (.stdout line) = pushBounded buf ("[stdout] " ++ trimString line)
    ∧ handleOutEvent buf (.stderr line) = pushBounded buf ("[stderr] " ++ trimString line)
    ∧ (buf.length ≤ 500 → ∀ e, (handleOutEvent buf e).length ≤ 500)
    ∧ (buf.length = 500 →
        handleOutEvent buf (.stdout line) = buf.tail ++ ["[stdout] " ++ trimString line]
        ∧ handleOutEvent buf (.stderr line) = buf.tail ++ ["[stderr] " ++ trimString line])
    ∧ (runCapture [] evs).length ≤ 500 :=
  ⟨rfl, rfl,
   fun h e => handleOutEvent_length_le buf e h,
   fun h => ⟨pushBounded_evict _ _ h, pushBounded_evict _ _ h⟩,
   runCapture_length_le evs [] (by simp)⟩

/-- Witness for `log_buffer_spec`: the bound holds after one append to an
empty buffer, and at a full 500-entry buffer the head is evicted. -/
theorem log_buffer_spec_witness :
    (handleOutEvent [] (.stdout "x")).length ≤ 500
    ∧ handleOutEvent (List.replicate 500 "y") (.stdout "x") =
        (List.replicate 500 "y").tail ++ ["[stdout] " ++ trimString "x"]
    ∧ (runCapture [] [.stdout "hi"]).length ≤ 500 :=
  ⟨(log_buffer_spec [] "x" []).2.2.1 (by simp) (.stdout "x"),
   ((log_buffer_spec (List.replicate 500 "y") "x" []).2.2.2.1
     (by rw [List.length_replicate])).1,
   (log_buffer_spec [] "x" [.stdout "hi"]).2.2.2.2⟩

/-- C9: `stop_app` on an id not in the running set returns success, kills
nothing, emits nothing, and leaves the whole state unchanged. -/
theorem stop_app_unknown (st : AppState) (id : String) (kill : Except String Unit)
    (h : lookupKey st.processes id = none) :
    stop_app st id kill = (.ok (), st, []) := by
  simp [stop_app, h]

/-- Witness for `stop_app_unknown` at the empty state. -/
theorem stop_app_unknown_witness :
    stop_app ⟨[], []⟩ "a" (.ok ()) = (.ok (), ⟨[], []⟩, []) :=
  stop_app_unknown ⟨[], []⟩ "a" (.ok ()) (by decide)

/-- C10: `stop_app` removes the entry before attempting the kill, so when
the kill of the tracked handle fails the call returns an error, yet the id
is gone from the running set — its status lookup returns nothing and it is
absent from the running-apps listing — and no termination event was
emitted. -/
theorem stop_app_kill_failure (st : AppState) (id : String) (process : RunningProcess)
    (e : String) (h : lookupKey st.processes id = some process) :
    stop_app st id (.error e) =
      (.error ("Failed to stop app: " ++ e),
       { st with processes := removeKey st.processes id },
       [.killedTree process.pid])
    ∧ get_app_status { st with processes := removeKey st.processes id } id = none
    ∧ (∀ p : Int,
        (id, p) ∉ get_running_apps { st with processes := removeKey st.processes id })
    ∧ (∀ c : Option Int,
        Effect.emittedStopped id c ∉ ([.killedTree process.pid] : List Effect)) := by
  refine ⟨?_, ?_, ?_, ?_⟩
  · simp [stop_app, h]
  · simp [get_app_status, lookupKey_removeKey_self]
  · intro p hp
    simp only [get_running_apps, removeKey, List.mem_map, List.mem_filter] at hp
    obtain ⟨x, ⟨_, hx2⟩, hx3⟩ := hp
    have : x.1 = id := congrArg Prod.fst hx3
    simp [this] at hx2
  · intro c hc
    simp at hc

/-- Witness for `stop_app_kill_failure` at a one-process state. -/
theorem stop_app_kill_failure_witness :
    stop_app ⟨[("a", ⟨7, 3000⟩)], [("a", [])]⟩ "a" (.error "no such process") =
      (.error ("Failed to stop app: " ++ "no such process"),
       { processes := removeKey [("a", ⟨7, 3000⟩)] "a", logs := [("a", [])] },
       [.killedTree 7])
    ∧ get_app_status ⟨removeKey [("a", ⟨7, 3000⟩)] "a", [("a", [])]⟩ "a" = none
    ∧ (∀ p : Int,
        ("a", p) ∉ get_running_apps ⟨removeKey [("a", ⟨7, 3000⟩)] "a", [("a", [])]⟩)
    ∧ (∀ c : Option Int,
        Effect.emittedStopped "a" c ∉ ([.killedTree 7] : List Effect)) :=
  stop_app_kill_failure ⟨[("a", ⟨7, 3000⟩)], [("a", [])]⟩ "a" ⟨7, 3000⟩
    "no such process" (by decide)

end MyLittleApps
